import Mathlib

/-!
# WLED_interface: verification of the spec against `src/main.py`

Shallow embedding of the repository `AlexZettler/WLED_interface`
(single file `src/main.py`): a client-side object model for a WLED
LED-controller device.  Python dictionaries parsed from JSON are
modelled by the inductive type `Json` (objects as association lists in
insertion order, matching Python dict iteration order); Python
exceptions are modelled by `Except PyErr`; the HTTP transport and the
file system, which the spec declares external collaborators, enter the
model as explicit parameters (fetch results, post outcome, file
contents).
-/

namespace WledIface

/-- A JSON value as produced by Python's `json.loads`: `null`/`None`,
booleans, integers, strings, arrays (Python lists) and objects (Python
dicts, kept as key/value pairs in insertion order). -/
inductive Json where
  | null : Json
  | bool (b : Bool) : Json
  | num (n : Int) : Json
  | str (s : String) : Json
  | arr (xs : List Json) : Json
  | obj (kvs : List (String × Json)) : Json
  deriving Repr

/-- Python exceptions raised by the code under `src/`: `ValueError`
(the spec's `ValidationError` / `OutOfRangeError`), `KeyError`,
`TypeError`/`AttributeError` for unsupported operations on a value, and
`IndexError`.  The transport errors of the spec (`TransportError`) are
modelled by the transport parameters below. -/
inductive PyErr where
  | valueError : PyErr
  | keyError : PyErr
  | typeError : PyErr
  | indexError : PyErr
  | fileError : PyErr
  deriving Repr, DecidableEq

/-- Python dict read `d[k]`: first binding of `k` (keys are unique in
dicts reachable from Python, so "first" is "the" binding). -/
def dictGet (kvs : List (String × Json)) (k : String) : Option Json :=
  (kvs.find? (fun p => p.1 = k)).map (·.2)

/-- Python dict write `d[k] = v`: replace the binding in place when `k`
is present, append it otherwise (Python dict insertion-order
semantics). -/
def dictSet (kvs : List (String × Json)) (k : String) (v : Json) :
    List (String × Json) :=
  if (kvs.find? (fun p => p.1 = k)).isSome then
    kvs.map (fun p => if p.1 = k then (k, v) else p)
  else
    kvs ++ [(k, v)]

/-- Subscript read `j[k]` with a string key: a `KeyError` when the key
is absent, a `TypeError` when `j` is not a dict. -/
def jsonGetKey (j : Json) (k : String) : Except PyErr Json :=
  match j with
  | .obj kvs =>
    match dictGet kvs k with
    | some v => .ok v
    | none => .error .keyError
  | _ => .error .typeError

/-- Subscript write `j[k] = v` with a string key. -/
def jsonSetKey (j : Json) (k : String) (v : Json) : Except PyErr Json :=
  match j with
  | .obj kvs => .ok (.obj (dictSet kvs k v))
  | _ => .error .typeError

/-- Python list read `xs[i]` with an integer index: non-negative
indices from the front, negative indices from the back, `IndexError`
outside `[-len, len)`. -/
def pyListGet (xs : List Json) (i : Int) : Except PyErr Json :=
  if h : 0 ≤ i ∧ i < xs.length then
    .ok (xs.get ⟨i.toNat, by omega⟩)
  else if h' : -(xs.length : Int) ≤ i ∧ i < 0 then
    .ok (xs.get ⟨(i + xs.length).toNat, by omega⟩)
  else .error .indexError

/-- Python list item write `xs[i] = v`. -/
def pyListSet (xs : List Json) (i : Int) (v : Json) :
    Except PyErr (List Json) :=
  if 0 ≤ i ∧ i < xs.length then
    .ok (xs.set i.toNat v)
  else if -(xs.length : Int) ≤ i ∧ i < 0 then
    .ok (xs.set (i + xs.length).toNat v)
  else .error .indexError

/-- Subscript read `j[i]` with an integer index (`j` a JSON array). -/
def jsonIndex (j : Json) (i : Int) : Except PyErr Json :=
  match j with
  | .arr xs => pyListGet xs i
  | _ => .error .typeError

/-! ## Value validators (`TypeVerificationMixin`, main.py:70-87) -/

/-- Python truthiness `bool(val)` on JSON-representable values:
`None`, `False`, `0`, `""`, `[]` and `{}` are falsy, every other value
is truthy. -/
def pyTruthy : Json → Bool
  | .null => false
  | .bool b => b
  | .num n => n != 0
  | .str s => s != ""
  | .arr xs => !xs.isEmpty
  | .obj kvs => !kvs.isEmpty

/-- `TypeVerificationMixin._verify_bool` (main.py:71-73):
`return bool(val)`.  `bool()` raises for none of the
JSON-representable values, so the result is always `ok`; the `Except`
return type matches the other validators, which can raise. -/
def verify_bool (val : Json) : Except PyErr Bool :=
  .ok (pyTruthy val)

/-- `TypeVerificationMixin._verify_int8bit` (main.py:75-80) on an
integer input (`int(val)` is the identity there):
raise `ValueError` when `val > 255 or val < 1`, else return `val`. -/
def verify_int8bit (val : Int) : Except PyErr Int :=
  if val > 255 ∨ val < 1 then .error .valueError else .ok val

/-- `TypeVerificationMixin._verify_range` (main.py:82-87) on an
integer input: raise `ValueError` when
`val > max_val or val < min_val`, else return `val`. -/
def verify_range (val min_val max_val : Int) : Except PyErr Int :=
  if val > max_val ∨ val < min_val then .error .valueError else .ok val

/-- Decimal value of a digit list (most significant first). -/
def digitsVal (cs : List Char) : Nat :=
  cs.foldl (fun a c => a * 10 + (c.toNat - '0'.toNat)) 0

/-- Python's built-in `int(s)` on a string (an external collaborator of
the repo code): optional surrounding spaces, an optional sign, then one
or more decimal digits; anything else raises `ValueError`.
(Underscore digit grouping and non-ASCII digits are not modelled; no
claim exercises them.) -/
def pyIntOfString (s : String) : Except PyErr Int :=
  let cs := ((s.data.dropWhile (· == ' ')).reverse.dropWhile (· == ' ')).reverse
  let sd : Int × List Char :=
    match cs with
    | '+' :: rest => (1, rest)
    | '-' :: rest => (-1, rest)
    | rest => (1, rest)
  if sd.2 ≠ [] ∧ sd.2.all (·.isDigit) then .ok (sd.1 * digitsVal sd.2)
  else .error .valueError

/-- Python's built-in `int(x)` on a JSON-representable value:
identity on integers, `0`/`1` on booleans, string parsing on strings,
`TypeError` elsewhere. -/
def pyInt : Json → Except PyErr Int
  | .num n => .ok n
  | .bool b => .ok (if b then 1 else 0)
  | .str s => pyIntOfString s
  | _ => .error .typeError

/-! ## Nightlight view (`NightlightProperty`, main.py:96-148) -/

/-- `NightlightProperty._MODE_MAP` (main.py:102-107).  Note the third
symbolic name is `"color fade"`, with a space. -/
def MODE_MAP : List (String × Int) :=
  [("instant", 0), ("fade", 1), ("color fade", 2), ("sunrise", 3)]

/-- The `self._MODE_MAP[value]` lookup in the mode setter: all keys are
strings, so a non-string subscript misses (`KeyError`, swallowed by the
setter's `except KeyError: pass`). -/
def modeLookup : Json → Option Int
  | .str s => (MODE_MAP.find? (fun p => p.1 = s)).map (·.2)
  | _ => none

/-- `NightlightProperty.mode` setter, value computation
(main.py:129-136): replace `value` by `_MODE_MAP[value]` when the
lookup hits (a `KeyError` is swallowed), coerce with `int(...)`, then
range-validate with `_verify_range(value, 0, 3)`. -/
def mode_set (value : Json) : Except PyErr Int := do
  let value := match modeLookup value with
    | some n => Json.num n
    | none => value
  let n ← pyInt value
  verify_range n 0 3

/-- The nightlight setter closure wired in `PropertyWLED.__init__`
(main.py:228-231): `self.state["nl"].__setitem__(k, v)` — read the
`"nl"` sub-dict (raising `KeyError` when absent), set `k` in it. -/
def nl_setter (st : Json) (k : String) (v : Json) : Except PyErr Json := do
  let nl ← jsonGetKey st "nl"
  let nl' ← jsonSetKey nl k v
  jsonSetKey st "nl" nl'

/-- The nightlight accessor closure wired in `PropertyWLED.__init__`:
`self.state["nl"].__getitem__(k)`. -/
def nl_accessor (st : Json) (k : String) : Except PyErr Json := do
  let nl ← jsonGetKey st "nl"
  jsonGetKey nl k

/-- End-to-end `led.nightlight.mode = value` against a state document:
validate the value, then store it at `state["nl"]["mode"]`.  A
validation failure stores nothing. -/
def mode_set_state (st : Json) (value : Json) : Except PyErr Json := do
  let n ← mode_set value
  nl_setter st "mode" (.num n)

/-! ## Segment views (`SegmentItem` / `SegmentListProperty`,
main.py:151-198) -/

/-- The segment accessor closure wired in `PropertyWLED.__init__`
(main.py:233-237): `self.state["seg"].__getitem__(k)` with an integer
subscript. -/
def seg_accessor (st : Json) (k : Int) : Except PyErr Json := do
  let seg ← jsonGetKey st "seg"
  jsonIndex seg k

/-- The segment setter closure: `self.state["seg"].__setitem__(k, v)`
with an integer subscript.  `state["seg"]` is a JSON array in the
device schema (the spec's data model has only string-keyed mappings),
so a non-array `"seg"` value is modelled as a type error. -/
def seg_setter (st : Json) (k : Int) (v : Json) : Except PyErr Json := do
  let seg ← jsonGetKey st "seg"
  match seg with
  | .arr xs => do
    let xs' ← pyListSet xs k v
    jsonSetKey st "seg" (.arr xs')
  | _ => .error .typeError

/-- Python `item < max_seg` where `item` is an integer and `max_seg`
came out of the info document: numbers and booleans compare,
anything else raises `TypeError`. -/
def pyLtIntJson (i : Int) : Json → Except PyErr Bool
  | .num m => .ok (decide (i < m))
  | .bool b => .ok (decide (i < (if b then (1 : Int) else 0)))
  | _ => .error .typeError

/-- `SegmentListProperty.__getitem__` (main.py:181-190): read
`max_seg = info["leds"]["maxseg"]`; when `item < max_seg` return a
`SegmentItem` bound to `item` (modelled by the bound id), otherwise
fall off the function (Python returns `None`, modelled by `none`). -/
def seg_getitem (info : Json) (item : Int) : Except PyErr (Option Int) := do
  let leds ← jsonGetKey info "leds"
  let ms ← jsonGetKey leds "maxseg"
  let lt ← pyLtIntJson item ms
  if lt then pure (some item) else pure none

/-- `SegmentItem.start` getter (main.py:162-168):
`self._accessor(self._seg_id)["start"]`, i.e.
`state["seg"][seg_id]["start"]`. -/
def seg_item_start_get (st : Json) (seg_id : Int) : Except PyErr Json := do
  let item ← seg_accessor st seg_id
  jsonGetKey item "start"

/-- `SegmentItem.start` setter (main.py:170-172):
`self._setter(self._seg_id, self._verify_int8bit(value))`, i.e. the
validated integer is written to the whole slot
`state["seg"][seg_id]`. -/
def seg_item_start_set (st : Json) (seg_id : Int) (value : Int) :
    Except PyErr Json := do
  let v ← verify_int8bit value
  seg_setter st seg_id (.num v)

/-! ## Device state store (`WLED`, main.py:12-67)

The HTTP transport is an external collaborator: each `GET`'s outcome
(raised, or returned a parsed document) and the `POST`'s outcome are
passed in as explicit parameters. -/

/-- The four in-memory documents held by a `WLED` instance
(main.py:21-24): `state`, `info`, `effects`, `palettes`. -/
structure DeviceDocs where
  state : Json
  info : Json
  effects : List String
  palettes : List String
  deriving Repr

/-- Outcome of the four `GET /json/<endpoint>` fetches of one
`pull_state` call: `none` means that fetch raised (network failure or
malformed JSON — the spec's `TransportError`), `some d` means it
returned document `d`. -/
structure FetchResults where
  state : Option Json
  info : Option Json
  effects : Option (List String)
  palettes : Option (List String)

/-- `WLED.pull_state` (main.py:45-49): four sequential fetch-and-assign
statements; a raising fetch propagates the exception at once, so the
assignments after it do not execute while the ones before it already
did.  Returns the documents as they stand after the call together with
`true` when no fetch raised. -/
def pull_state (w : DeviceDocs) (f : FetchResults) : DeviceDocs × Bool :=
  match f.state with
  | none => (w, false)
  | some st =>
    let w1 := { w with state := st }
    match f.info with
    | none => (w1, false)
    | some inf =>
      let w2 := { w1 with info := inf }
      match f.effects with
      | none => (w2, false)
      | some eff =>
        let w3 := { w2 with effects := eff }
        match f.palettes with
        | none => (w3, false)
        | some pal => ({ w3 with palettes := pal }, true)

/-- Result of one `push_state` call: the documents after the call,
the body handed to `post` (`none` when the call raised before
posting), and whether the call completed without raising. -/
structure PushResult where
  docs : DeviceDocs
  sent : Option Json
  ok : Bool
  deriving Repr

/-- `WLED.push_state` (main.py:51-59).  When `get_resp` is set, the
verbose flag is first written into the state **in place**
(`self.state.update({"v": get_resp})`); the current state is then
posted; when `get_resp` is set the response text is parsed and replaces
the state.  `postOk = false` models a raising `post` (the spec's
`TransportError`); `resp = none` models a response body that is not
valid JSON, so that `loads(r.text)` raises. -/
def push_state (w : DeviceDocs) (get_resp : Bool) (postOk : Bool)
    (resp : Option Json) : PushResult :=
  match (if get_resp then jsonSetKey w.state "v" (.bool get_resp)
         else .ok w.state) with
  | .error _ => ⟨w, none, false⟩
  | .ok st =>
    let w1 := { w with state := st }
    if !postOk then ⟨w1, some st, false⟩
    else if get_resp then
      match resp with
      | none => ⟨w1, some st, false⟩
      | some j => ⟨{ w1 with state := j }, some st, true⟩
    else ⟨w1, some st, true⟩

/-- `WLED.loaded` (main.py:32-38): each of the two dicts must have a
non-zero number of keys and each of the two lists a non-zero length
(`.keys()` on a non-dict raises). -/
def loaded (w : DeviceDocs) : Except PyErr Bool := do
  let sKeys ← match w.state with
    | .obj kvs => pure kvs.length
    | _ => .error .typeError
  let iKeys ← match w.info with
    | .obj kvs => pure kvs.length
    | _ => .error .typeError
  pure ((sKeys != 0) && (iKeys != 0) &&
        (w.effects.length != 0) && (w.palettes.length != 0))

/-! ## JSON serialization (`json.dumps` / `json.loads`)

`save_state_file` writes `dumps(self.state)` and `load_state_file`
replaces the state with `loads` of the file's text (main.py:61-67).
The `json` module is an external collaborator; it is modelled
concretely: `dumps` mirrors Python's defaults (compact `", "` and
`": "` separators, `ensure_ascii=True` escaping with surrogate pairs
for astral characters), and `loads` is a parser sufficient for every
`dumps` output (integers rather than floats; object members collected
in order, which on the duplicate-free objects reachable from Python
dicts coincides with `dict` semantics). -/

/-- The decimal digit character for `d < 10`. -/
def digitChar (d : Nat) : Char := Char.ofNat (48 + d)

/-- Lowercase hexadecimal digit character for `d < 16`, as emitted by
Python's `"\\u%04x"`. -/
def hexDigit (d : Nat) : Char :=
  if d < 10 then digitChar d else Char.ofNat (97 + (d - 10))

/-- Four hex digits of `n < 0x10000`, most significant first. -/
def hex4 (n : Nat) : List Char :=
  [hexDigit (n / 4096 % 16), hexDigit (n / 256 % 16),
   hexDigit (n / 16 % 16), hexDigit (n % 16)]

/-- `json.dumps` escaping of one character (`ensure_ascii=True`):
`"` and `\` get two-character escapes, the five named control
characters their short forms, printable ASCII is copied, every other
BMP character becomes `\uXXXX`, and astral characters a surrogate
pair `\uXXXX\uXXXX`. -/
def escChar (c : Char) : List Char :=
  if c = '"' then ['\\', '"']
  else if c = '\\' then ['\\', '\\']
  else if c.toNat = 8 then ['\\', 'b']
  else if c.toNat = 9 then ['\\', 't']
  else if c.toNat = 10 then ['\\', 'n']
  else if c.toNat = 12 then ['\\', 'f']
  else if c.toNat = 13 then ['\\', 'r']
  else if 32 ≤ c.toNat ∧ c.toNat ≤ 126 then [c]
  else if c.toNat < 65536 then '\\' :: 'u' :: hex4 c.toNat
  else '\\' :: 'u' :: hex4 (55296 + (c.toNat - 65536) / 1024) ++
       '\\' :: 'u' :: hex4 (56320 + (c.toNat - 65536) % 1024)

/-- Escaped body of a string: each character escaped, concatenated. -/
def escBody (s : List Char) : List Char := (s.map escChar).flatten

/-- A serialized JSON string: quote, escaped body, quote. -/
def escString (s : String) : List Char := '"' :: escBody s.data ++ ['"']

/-- Decimal digits of `n`, most significant first. -/
def natDigits (n : Nat) : List Char :=
  if _h : n < 10 then [digitChar n]
  else natDigits (n / 10) ++ [digitChar (n % 10)]
  decreasing_by exact Nat.div_lt_self (by omega) (by omega)

/-- Serialized integer: optional minus sign and decimal digits. -/
def intChars (n : Int) : List Char :=
  if n < 0 then '-' :: natDigits (-n).toNat else natDigits n.toNat

mutual

/-- `json.dumps` with its default separators, producing the character
list of the output. -/
def dumpsVal : Json → List Char
  | .null => "null".data
  | .bool true => "true".data
  | .bool false => "false".data
  | .num n => intChars n
  | .str s => escString s
  | .arr xs => '[' :: dumpsList xs ++ [']']
  | .obj kvs => '{' :: dumpsObj kvs ++ ['}']

/-- Array elements joined by `", "`. -/
def dumpsList : List Json → List Char
  | [] => []
  | [x] => dumpsVal x
  | x :: xs => dumpsVal x ++ ',' :: ' ' :: dumpsList xs

/-- Object members `"key": value` joined by `", "`. -/
def dumpsObj : List (String × Json) → List Char
  | [] => []
  | [(k, v)] => escString k ++ ':' :: ' ' :: dumpsVal v
  | (k, v) :: kvs =>
    escString k ++ ':' :: ' ' :: dumpsVal v ++ ',' :: ' ' :: dumpsObj kvs

end

/-- `json.dumps` as a string. -/
def dumps (j : Json) : String := ⟨dumpsVal j⟩

/-- JSON whitespace: space, tab, newline, carriage return. -/
def isWsChar (c : Char) : Bool :=
  c = ' ' || c = '\t' || c = '\n' || c = '\r'

/-- Drop leading JSON whitespace. -/
def skipWs (cs : List Char) : List Char := cs.dropWhile isWsChar

/-- Value of one hexadecimal digit (both cases accepted). -/
def hexVal (c : Char) : Option Nat :=
  if 48 ≤ c.toNat ∧ c.toNat ≤ 57 then some (c.toNat - 48)
  else if 97 ≤ c.toNat ∧ c.toNat ≤ 102 then some (c.toNat - 87)
  else if 65 ≤ c.toNat ∧ c.toNat ≤ 70 then some (c.toNat - 55)
  else none

/-- Value of a four-hex-digit group `\uXXXX`. -/
def hex4Val (a b c d : Char) : Option Nat := do
  let va ← hexVal a
  let vb ← hexVal b
  let vc ← hexVal c
  let vd ← hexVal d
  pure (((va * 16 + vb) * 16 + vc) * 16 + vd)

/-- The character denoted by a two-character escape `\e` (other than
`\u`). -/
def escCode (e : Char) : Option Char :=
  if e = '"' then some '"'
  else if e = '\\' then some '\\'
  else if e = '/' then some '/'
  else if e = 'b' then some (Char.ofNat 8)
  else if e = 't' then some (Char.ofNat 9)
  else if e = 'n' then some (Char.ofNat 10)
  else if e = 'f' then some (Char.ofNat 12)
  else if e = 'r' then some (Char.ofNat 13)
  else none

/-- Decode the input directly following a `\u` escape: one
four-hex-digit group, or — when the first group is a high surrogate —
two groups forming a surrogate pair.  Returns the decoded character
together with the number of input characters consumed (4 or 10).  Lone
surrogates are rejected: they denote no Unicode scalar value. -/
def parseUEsc : List Char → Option (Char × Nat)
  | a :: b :: c :: d :: cs =>
    match hex4Val a b c d with
    | some h =>
      if 55296 ≤ h ∧ h < 56320 then
        match cs with
        | e2 :: u2 :: a2 :: b2 :: c2 :: d2 :: _ =>
          if e2 = '\\' ∧ u2 = 'u' then
            match hex4Val a2 b2 c2 d2 with
            | some l =>
              if 56320 ≤ l ∧ l < 57344 then
                some (Char.ofNat
                  (65536 + (h - 55296) * 1024 + (l - 56320)), 10)
              else none
            | none => none
          else none
        | _ => none
      else if 56320 ≤ h ∧ h < 57344 then none
      else some (Char.ofNat h, 4)
    | none => none
  | _ => none

/-- Parse the body of a JSON string up to and including the closing
quote, returning the decoded characters and the remaining input.  Raw
control characters are rejected as in strict-mode `json.loads`. -/
def parseStrBody (cs : List Char) : Option (List Char × List Char) :=
  match cs with
  | [] => none
  | c :: cs' =>
    if c = '"' then some ([], cs')
    else if c = '\\' then
      match cs' with
      | [] => none
      | e :: cs1 =>
        if e = 'u' then
          match parseUEsc cs1 with
          | none => none
          | some (ch, k) =>
            (parseStrBody (cs1.drop k)).map (fun p => (ch :: p.1, p.2))
        else
          match escCode e with
          | none => none
          | some ec => (parseStrBody cs1).map (fun p => (ec :: p.1, p.2))
    else if c.toNat < 32 then none
    else (parseStrBody cs').map (fun p => (c :: p.1, p.2))
termination_by cs.length
decreasing_by
  all_goals simp only [List.length_drop, List.length_cons]
  all_goals omega

/-- Decimal digit test. -/
def isDig (c : Char) : Bool := 48 ≤ c.toNat && c.toNat ≤ 57

/-- Parse one or more decimal digits. -/
def parseNat (cs : List Char) : Option (Nat × List Char) :=
  let ds := cs.takeWhile isDig
  if ds.isEmpty then none
  else some (digitsVal ds, cs.dropWhile isDig)

/-- The input does not begin with a decimal digit, so a serialized
number directly in front of it cannot absorb part of it. -/
def noDigitHead : List Char → Prop
  | [] => True
  | c :: _ => isDig c = false

mutual

/-- Parse one JSON value (after optional whitespace).  The fuel bounds
the recursion depth; `loads` supplies more fuel than any input can
consume.  Numbers are integers (the state documents of this device
hold no floats — floating point is outside the model). -/
def parseValue : Nat → List Char → Option (Json × List Char)
  | 0, _ => none
  | fuel + 1, cs =>
    match skipWs cs with
    | [] => none
    | c :: cs1 =>
      if c = '-' then (parseNat cs1).map (fun p => (.num (-(p.1 : Int)), p.2))
      else if isDig c then
        (parseNat (c :: cs1)).map (fun p => (.num (p.1 : Int), p.2))
      else if c = '"' then
        (parseStrBody cs1).map (fun p => (.str ⟨p.1⟩, p.2))
      else if c = '[' then
        match skipWs cs1 with
        | [] => none
        | d :: cs2 =>
          if d = ']' then some (.arr [], cs2)
          else (parseElems fuel (d :: cs2)).map (fun p => (.arr p.1, p.2))
      else if c = '{' then
        match skipWs cs1 with
        | [] => none
        | d :: cs2 =>
          if d = '}' then some (.obj [], cs2)
          else (parseMembers fuel (d :: cs2)).map (fun p => (.obj p.1, p.2))
      else
        match c :: cs1 with
        | 'n' :: 'u' :: 'l' :: 'l' :: rest => some (.null, rest)
        | 't' :: 'r' :: 'u' :: 'e' :: rest => some (.bool true, rest)
        | 'f' :: 'a' :: 'l' :: 's' :: 'e' :: rest => some (.bool false, rest)
        | _ => none

/-- Parse the elements of a non-empty array up to and including the
closing bracket. -/
def parseElems : Nat → List Char → Option (List Json × List Char)
  | 0, _ => none
  | fuel + 1, cs =>
    match parseValue fuel cs with
    | none => none
    | some (v, rest) =>
      match skipWs rest with
      | [] => none
      | d :: rest2 =>
        if d = ',' then
          (parseElems fuel rest2).map (fun p => (v :: p.1, p.2))
        else if d = ']' then some ([v], rest2)
        else none

/-- Parse the members of a non-empty object up to and including the
closing brace.  Members are collected in order; on the
duplicate-free key sets reachable from Python dicts this coincides
with `dict` construction. -/
def parseMembers : Nat → List Char → Option (List (String × Json) × List Char)
  | 0, _ => none
  | fuel + 1, cs =>
    match skipWs cs with
    | [] => none
    | q :: cs1 =>
      if q = '"' then
        match parseStrBody cs1 with
        | none => none
        | some (k, rest1) =>
          match skipWs rest1 with
          | [] => none
          | col :: rest2 =>
            if col = ':' then
              match parseValue fuel rest2 with
              | none => none
              | some (v, rest3) =>
                match skipWs rest3 with
                | [] => none
                | d :: rest4 =>
                  if d = ',' then
                    (parseMembers fuel rest4).map (fun p =>
                      ((⟨k⟩, v) :: p.1, p.2))
                  else if d = '}' then some ([(⟨k⟩, v)], rest4)
                  else none
            else none
      else none

end

/-- `json.loads`: parse one value, allow trailing whitespace only.
The fuel `2 * length + 2` exceeds what parsing any input of this
length can consume. -/
def loads (s : String) : Option Json :=
  match parseValue (2 * s.length + 2) s.data with
  | some (v, rest) => if skipWs rest = [] then some v else none
  | none => none

mutual

/-- Fuel sufficient to parse the serialization of a value. -/
def jweight : Json → Nat
  | .arr xs => 1 + jweightList xs
  | .obj kvs => 1 + jweightObj kvs
  | _ => 1

/-- Fuel sufficient to parse a serialized element list. -/
def jweightList : List Json → Nat
  | e :: es => 1 + jweight e + jweightList es
  | [] => 1

/-- Fuel sufficient to parse a serialized member list. -/
def jweightObj : List (String × Json) → Nat
  | p :: ps => 1 + jweight p.2 + jweightObj ps
  | [] => 1

end

/-! ## State snapshot files (`WLED.save_state_file` /
`WLED.load_state_file`, main.py:61-67)

The file system is an external collaborator, modelled as a map from
path to text contents. -/

/-- The fixed relative path `./saved_states/<name>.json` used by both
`save_state_file` and `load_state_file`. -/
def save_path (file_name : String) : String :=
  "./saved_states/" ++ file_name ++ ".json"

/-- `WLED.save_state_file` (main.py:61-63): write `dumps(self.state)`
as the whole contents of the snapshot file. -/
def save_state_file (fs : String → Option String) (w : DeviceDocs)
    (file_name : String) : String → Option String :=
  fun p => if p = save_path file_name then some (dumps w.state) else fs p

/-- `WLED.load_state_file` (main.py:65-67): read the whole snapshot
file and replace the state with `loads` of its text.  A missing file
raises (the spec's `FileError`); text that is not valid JSON raises
`json.JSONDecodeError`, a subclass of `ValueError`. -/
def load_state_file (fs : String → Option String) (w : DeviceDocs)
    (file_name : String) : Except PyErr DeviceDocs :=
  match fs (save_path file_name) with
  | none => .error .fileError
  | some txt =>
    match loads txt with
    | some j => .ok { w with state := j }
    | none => .error .valueError

/-! ## Theorems -/

/-! ### Round-trip of the JSON serialization: helper lemmas -/

theorem toNat_ofNat_valid (n : Nat) (h : n.isValidChar) :
    (Char.ofNat n).toNat = n := by
  rw [Char.ofNat, dif_pos h]
  rfl

theorem char_toNat_inj {a b : Char} (h : a.toNat = b.toNat) : a = b := by
  have hc := congrArg Char.ofNat h
  simpa using hc

theorem digitChar_toNat {d : Nat} (hd : d < 10) :
    (digitChar d).toNat = 48 + d :=
  toNat_ofNat_valid _ (Or.inl (by omega))

theorem isDig_digitChar {d : Nat} (hd : d < 10) :
    isDig (digitChar d) = true := by
  simp only [isDig, digitChar_toNat hd]
  simp
  omega

theorem hexVal_hexDigit {d : Nat} (hd : d < 16) :
    hexVal (hexDigit d) = some d := by
  unfold hexDigit
  by_cases h : d < 10
  · rw [if_pos h]
    simp only [hexVal, digitChar_toNat h]
    rw [if_pos (by omega : 48 ≤ 48 + d ∧ 48 + d ≤ 57)]
    simp
  · rw [if_neg h]
    have ht := toNat_ofNat_valid (97 + (d - 10)) (Or.inl (by omega))
    simp only [hexVal, ht]
    rw [if_neg (by omega), if_pos (by omega : 97 ≤ 97 + (d - 10) ∧
      97 + (d - 10) ≤ 102)]
    simp
    omega

theorem hex4Val_hex4 {n : Nat} (h : n < 65536) :
    hex4Val (hexDigit (n / 4096 % 16)) (hexDigit (n / 256 % 16))
      (hexDigit (n / 16 % 16)) (hexDigit (n % 16)) = some n := by
  have h1 := hexVal_hexDigit (d := n / 4096 % 16) (by omega)
  have h2 := hexVal_hexDigit (d := n / 256 % 16) (by omega)
  have h3 := hexVal_hexDigit (d := n / 16 % 16) (by omega)
  have h4 := hexVal_hexDigit (d := n % 16) (by omega)
  simp only [hex4Val, h1, h2, h3, h4, bind, Option.bind, pure]
  congr 1
  omega

theorem natDigits_spec (n : Nat) :
    natDigits n ≠ [] ∧ (∀ c ∈ natDigits n, isDig c = true) ∧
    digitsVal (natDigits n) = n := by
  induction n using Nat.strong_induction_on with
  | _ n ih =>
    by_cases h : n < 10
    · rw [natDigits, dif_pos h]
      refine ⟨by simp, ?_, ?_⟩
      · intro c hc
        simp at hc
        subst hc
        exact isDig_digitChar h
      · simp [digitsVal, digitChar_toNat h]
    · rw [natDigits, dif_neg h]
      obtain ⟨ihne, ihall, ihval⟩ := ih (n / 10)
        (Nat.div_lt_self (by omega) (by omega))
      refine ⟨by simp, ?_, ?_⟩
      · intro c hc
        rcases List.mem_append.mp hc with h1 | h1
        · exact ihall c h1
        · simp at h1
          subst h1
          exact isDig_digitChar (by omega)
      · have happ : digitsVal (natDigits (n / 10) ++ [digitChar (n % 10)]) =
            digitsVal (natDigits (n / 10)) * 10 +
              ((digitChar (n % 10)).toNat - '0'.toNat) := by
          simp [digitsVal, List.foldl_append]
        rw [happ, ihval, digitChar_toNat (by omega : n % 10 < 10)]
        have h0 : '0'.toNat = 48 := rfl
        rw [h0]
        omega

theorem takeWhile_all_append (p : Char → Bool) (ds rest : List Char)
    (h1 : ∀ c ∈ ds, p c = true)
    (h2 : ∀ c, rest.head? = some c → p c = false) :
    (ds ++ rest).takeWhile p = ds ∧ (ds ++ rest).dropWhile p = rest := by
  induction ds with
  | nil =>
    simp only [List.nil_append]
    cases rest with
    | nil => simp
    | cons c cs =>
      simp [List.takeWhile_cons, List.dropWhile_cons, h2 c rfl]
  | cons d ds ihds =>
    have hd := h1 d (by simp)
    have ih := ihds (fun c hc => h1 c (by simp [hc]))
    simp [List.takeWhile_cons, List.dropWhile_cons, hd, ih.1, ih.2]

theorem parseNat_natDigits (n : Nat) (rest : List Char)
    (hrest : noDigitHead rest) :
    parseNat (natDigits n ++ rest) = some (n, rest) := by
  obtain ⟨hne, hall, hval⟩ := natDigits_spec n
  have hmatch : ∀ c, rest.head? = some c → isDig c = false := by
    intro c hc
    match rest, hrest, hc with
    | c' :: cs, h, hc => exact (Option.some.injEq _ _ ▸ hc : c' = c) ▸ h
  obtain ⟨ht, hd⟩ := takeWhile_all_append isDig (natDigits n) rest hall hmatch
  simp only [parseNat, ht, hd, hval]
  rw [if_neg (by simp [List.isEmpty_iff, hne])]

theorem char_valid_ranges (c : Char) :
    c.toNat < 55296 ∨ (57343 < c.toNat ∧ c.toNat < 1114112) := c.valid

theorem parseUEsc_single (a b c d : Char) (n : Nat) (z : List Char)
    (hh : hex4Val a b c d = some n) (hs : ¬(55296 ≤ n ∧ n < 57344)) :
    parseUEsc (a :: b :: c :: d :: z) = some (Char.ofNat n, 4) := by
  simp only [parseUEsc, hh]
  rw [if_neg (by omega), if_neg (by omega)]

theorem parseUEsc_pair (a b c d e f g h : Char) (hi lo : Nat)
    (z : List Char) (hha : hex4Val a b c d = some hi)
    (hhb : hex4Val e f g h = some lo)
    (hbi : 55296 ≤ hi ∧ hi < 56320) (hbl : 56320 ≤ lo ∧ lo < 57344) :
    parseUEsc (a :: b :: c :: d :: '\\' :: 'u' :: e :: f :: g :: h :: z) =
      some (Char.ofNat (65536 + (hi - 55296) * 1024 + (lo - 56320)), 10) := by
  simp only [parseUEsc, hha]
  rw [if_pos hbi]
  simp only [and_self, if_true, hhb]
  rw [if_pos hbl]

theorem parseStrBody_esc_step (c : Char) (z : List Char) :
    parseStrBody (escChar c ++ z) =
      (parseStrBody z).map (fun p => (c :: p.1, p.2)) := by
  have hv := char_valid_ranges c
  unfold escChar
  by_cases h1 : c = '"'
  · subst h1
    simp [parseStrBody, escCode]
  rw [if_neg h1]
  by_cases h2 : c = '\\'
  · subst h2
    simp [parseStrBody, escCode]
  rw [if_neg h2]
  by_cases h3 : c.toNat = 8
  · rw [if_pos h3]
    have he : Char.ofNat 8 = c := char_toNat_inj (by rw [h3]; rfl)
    simp [parseStrBody, escCode]
    rw [he]
  rw [if_neg h3]
  by_cases h4 : c.toNat = 9
  · rw [if_pos h4]
    have he : Char.ofNat 9 = c := char_toNat_inj (by rw [h4]; rfl)
    simp [parseStrBody, escCode]
    rw [he]
  rw [if_neg h4]
  by_cases h5 : c.toNat = 10
  · rw [if_pos h5]
    have he : Char.ofNat 10 = c := char_toNat_inj (by rw [h5]; rfl)
    simp [parseStrBody, escCode]
    rw [he]
  rw [if_neg h5]
  by_cases h6 : c.toNat = 12
  · rw [if_pos h6]
    have he : Char.ofNat 12 = c := char_toNat_inj (by rw [h6]; rfl)
    simp [parseStrBody, escCode]
    rw [he]
  rw [if_neg h6]
  by_cases h7 : c.toNat = 13
  · rw [if_pos h7]
    have he : Char.ofNat 13 = c := char_toNat_inj (by rw [h7]; rfl)
    simp [parseStrBody, escCode]
    rw [he]
  rw [if_neg h7]
  by_cases h8 : 32 ≤ c.toNat ∧ c.toNat ≤ 126
  · rw [if_pos h8]
    simp only [List.singleton_append]
    rw [parseStrBody.eq_def]
    dsimp only
    rw [if_neg h1, if_neg h2, if_neg (by omega : ¬ c.toNat < 32)]
  rw [if_neg h8]
  by_cases h9 : c.toNat < 65536
  · rw [if_pos h9]
    have hs : ¬(55296 ≤ c.toNat ∧ c.toNat < 57344) := by omega
    have hh := hex4Val_hex4 h9
    simp only [hex4, List.cons_append, List.nil_append]
    generalize hg1 : hexDigit (c.toNat / 4096 % 16) = a1 at hh ⊢
    generalize hg2 : hexDigit (c.toNat / 256 % 16) = a2 at hh ⊢
    generalize hg3 : hexDigit (c.toNat / 16 % 16) = a3 at hh ⊢
    generalize hg4 : hexDigit (c.toNat % 16) = a4 at hh ⊢
    have hP := parseUEsc_single a1 a2 a3 a4 c.toNat z hh hs
    have hdrop : (a1 :: a2 :: a3 :: a4 :: z).drop 4 = z := rfl
    rw [parseStrBody.eq_def]
    dsimp only
    simp only [hP, hdrop, Char.ofNat_toNat,
      show (('\\' : Char) = '"') = False by simp, if_false, if_true]
  · rw [if_neg h9]
    have hh1 := hex4Val_hex4
      (show 55296 + (c.toNat - 65536) / 1024 < 65536 by omega)
    have hh2 := hex4Val_hex4
      (show 56320 + (c.toNat - 65536) % 1024 < 65536 by omega)
    simp only [hex4, List.cons_append, List.nil_append, List.append_assoc]
    generalize hg1 :
      hexDigit ((55296 + (c.toNat - 65536) / 1024) / 4096 % 16) = a1 at hh1 ⊢
    generalize hg2 :
      hexDigit ((55296 + (c.toNat - 65536) / 1024) / 256 % 16) = a2 at hh1 ⊢
    generalize hg3 :
      hexDigit ((55296 + (c.toNat - 65536) / 1024) / 16 % 16) = a3 at hh1 ⊢
    generalize hg4 :
      hexDigit ((55296 + (c.toNat - 65536) / 1024) % 16) = a4 at hh1 ⊢
    generalize hg5 :
      hexDigit ((56320 + (c.toNat - 65536) % 1024) / 4096 % 16) = b1 at hh2 ⊢
    generalize hg6 :
      hexDigit ((56320 + (c.toNat - 65536) % 1024) / 256 % 16) = b2 at hh2 ⊢
    generalize hg7 :
      hexDigit ((56320 + (c.toNat - 65536) % 1024) / 16 % 16) = b3 at hh2 ⊢
    generalize hg8 :
      hexDigit ((56320 + (c.toNat - 65536) % 1024) % 16) = b4 at hh2 ⊢
    have harith : 65536 + (55296 + (c.toNat - 65536) / 1024 - 55296) * 1024 +
        (56320 + (c.toNat - 65536) % 1024 - 56320) = c.toNat := by omega
    generalize hN1 : 55296 + (c.toNat - 65536) / 1024 = hi at hh1 harith
    generalize hN2 : 56320 + (c.toNat - 65536) % 1024 = lo at hh2 harith
    have hbi : 55296 ≤ hi ∧ hi < 56320 := by omega
    have hbl : 56320 ≤ lo ∧ lo < 57344 := by omega
    have hP := parseUEsc_pair a1 a2 a3 a4 b1 b2 b3 b4 hi lo z hh1 hh2 hbi hbl
    have hdrop :
        (a1 :: a2 :: a3 :: a4 :: '\\' :: 'u' :: b1 :: b2 :: b3 :: b4 :: z).drop
          10 = z := rfl
    rw [parseStrBody.eq_def]
    dsimp only
    simp only [hP, hdrop, harith, Char.ofNat_toNat,
      show (('\\' : Char) = '"') = False by simp, if_false, if_true]

theorem parseStrBody_escBody (s : List Char) (rest : List Char) :
    parseStrBody (escBody s ++ '"' :: rest) = some (s, rest) := by
  induction s with
  | nil =>
    simp only [escBody, List.map_nil, List.flatten_nil, List.nil_append]
    rw [parseStrBody.eq_def]
    dsimp only
    simp
  | cons c s ihs =>
    have hesc : escBody (c :: s) = escChar c ++ escBody s := by
      simp [escBody]
    rw [hesc, List.append_assoc, parseStrBody_esc_step, ihs]
    rfl

theorem parseStrBody_escString (s : String) (rest : List Char) :
    parseStrBody (escBody s.data ++ '"' :: rest) = some (s.data, rest) :=
  parseStrBody_escBody s.data rest

theorem skipWs_cons_false {c : Char} {cs : List Char}
    (h : isWsChar c = false) : skipWs (c :: cs) = c :: cs := by
  simp [skipWs, List.dropWhile_cons, h]

theorem skipWs_cons_true {c : Char} {cs : List Char}
    (h : isWsChar c = true) : skipWs (c :: cs) = skipWs cs := by
  simp [skipWs, List.dropWhile_cons, h]

theorem char_ne_of_toNat_bounds {c : Char} (h48 : 48 ≤ c.toNat)
    (h57 : c.toNat ≤ 57) (d : Char) (hd : d.toNat < 48 ∨ 57 < d.toNat) :
    c ≠ d := fun he => by subst he; omega

theorem isDig_bounds {c : Char} (h : isDig c = true) :
    48 ≤ c.toNat ∧ c.toNat ≤ 57 := by simpa [isDig] using h

theorem isDig_not_ws {c : Char} (h : isDig c = true) : isWsChar c = false := by
  obtain ⟨h1, h2⟩ := isDig_bounds h
  have hne := char_ne_of_toNat_bounds h1 h2
  simp [isWsChar, hne ' ' (by decide), hne '\t' (by decide),
    hne '\n' (by decide), hne '\r' (by decide)]

theorem dumpsVal_head (j : Json) :
    ∃ c cs, dumpsVal j = c :: cs ∧ isWsChar c = false ∧ c ≠ ']' := by
  cases j with
  | null => exact ⟨'n', ['u', 'l', 'l'], by simp only [dumpsVal], by decide,
      by decide⟩
  | bool b =>
    cases b with
    | true => exact ⟨'t', ['r', 'u', 'e'], by simp only [dumpsVal], by decide,
        by decide⟩
    | false => exact ⟨'f', ['a', 'l', 's', 'e'], by simp only [dumpsVal],
        by decide, by decide⟩
  | num n =>
    by_cases hn : n < 0
    · refine ⟨'-', natDigits (-n).toNat, ?_, by decide, by decide⟩
      simp only [dumpsVal, intChars]
      rw [if_pos hn]
    · obtain ⟨hne, hall, -⟩ := natDigits_spec n.toNat
      rcases hD : natDigits n.toNat with _ | ⟨c, cs⟩
      · exact absurd hD hne
      · have hc : isDig c = true := hall c (by rw [hD]; simp)
        obtain ⟨hb1, hb2⟩ := isDig_bounds hc
        refine ⟨c, cs, ?_, isDig_not_ws hc,
          char_ne_of_toNat_bounds hb1 hb2 ']' (by decide)⟩
        simp only [dumpsVal, intChars]
        rw [if_neg hn, hD]
  | str s =>
    exact ⟨'"', escBody s.data ++ ['"'],
      by simp only [dumpsVal, escString, List.cons_append], by decide,
      by decide⟩
  | arr xs =>
    exact ⟨'[', dumpsList xs ++ [']'],
      by simp only [dumpsVal, List.cons_append], by decide, by decide⟩
  | obj kvs =>
    exact ⟨'{', dumpsObj kvs ++ ['}'],
      by simp only [dumpsVal, List.cons_append], by decide, by decide⟩

theorem skipWs_dumpsVal (j : Json) (rest : List Char) :
    skipWs (dumpsVal j ++ rest) = dumpsVal j ++ rest := by
  obtain ⟨c, cs, hj, hws, -⟩ := dumpsVal_head j
  rw [hj, List.cons_append]
  exact skipWs_cons_false hws

theorem jweight_pos (j : Json) : 1 ≤ jweight j := by
  cases j <;> simp [jweight]

theorem escString_append (k : String) (T : List Char) :
    escString k ++ T = '"' :: (escBody k.data ++ '"' :: T) := by
  simp [escString, List.cons_append, List.append_assoc]

theorem dumpsList_cons_head (x : Json) (xs : List Json) :
    ∃ c t, dumpsList (x :: xs) = c :: t ∧ isWsChar c = false ∧ c ≠ ']' := by
  obtain ⟨c0, cs0, hx, hws0, hne0⟩ := dumpsVal_head x
  rcases xs with _ | ⟨y, ys⟩
  · exact ⟨c0, cs0, by simp only [dumpsList]; rw [hx], hws0, hne0⟩
  · exact ⟨c0, cs0 ++ ',' :: ' ' :: dumpsList (y :: ys), by
      simp only [dumpsList]
      rw [hx]
      simp, hws0, hne0⟩

theorem skipWs_dumpsList (x : Json) (xs : List Json) (tail : List Char) :
    skipWs (dumpsList (x :: xs) ++ tail) = dumpsList (x :: xs) ++ tail := by
  obtain ⟨c, t, hct, hws, -⟩ := dumpsList_cons_head x xs
  rw [hct, List.cons_append]
  exact skipWs_cons_false hws

theorem dumpsObj_cons_head (k : String) (v : Json)
    (kvs : List (String × Json)) :
    ∃ t, dumpsObj ((k, v) :: kvs) = '"' :: t := by
  rcases kvs with _ | ⟨⟨k2, v2⟩, kvs2⟩
  · exact ⟨(escBody k.data ++ ['"']) ++ ':' :: ' ' :: dumpsVal v, by
      simp [dumpsObj, escString, List.cons_append, List.append_assoc]⟩
  · exact ⟨(escBody k.data ++ ['"']) ++ ':' :: ' ' ::
      (dumpsVal v ++ ',' :: ' ' :: dumpsObj ((k2, v2) :: kvs2)), by
      simp [dumpsObj, escString, List.cons_append, List.append_assoc]⟩

theorem skipWs_dumpsObj (k : String) (v : Json) (kvs : List (String × Json))
    (tail : List Char) :
    skipWs (dumpsObj ((k, v) :: kvs) ++ tail) =
      dumpsObj ((k, v) :: kvs) ++ tail := by
  obtain ⟨t, ht⟩ := dumpsObj_cons_head k v kvs
  rw [ht, List.cons_append]
  exact skipWs_cons_false (by decide)

theorem parse_dumps (fuel : Nat) :
    (∀ j cs rest, jweight j ≤ fuel → skipWs cs = dumpsVal j ++ rest →
      noDigitHead rest → parseValue fuel cs = some (j, rest)) ∧
    (∀ xs cs rest, xs ≠ [] → jweightList xs ≤ fuel →
      skipWs cs = dumpsList xs ++ ']' :: rest →
      parseElems fuel cs = some (xs, rest)) ∧
    (∀ kvs cs rest, kvs ≠ [] → jweightObj kvs ≤ fuel →
      skipWs cs = dumpsObj kvs ++ '}' :: rest →
      parseMembers fuel cs = some (kvs, rest)) := by
  induction fuel with
  | zero =>
    refine ⟨fun j _ _ hw _ _ => absurd hw (by have := jweight_pos j; omega),
      fun xs _ _ hne hw _ => ?_, fun kvs _ _ hne hw _ => ?_⟩
    · rcases xs with _ | ⟨x, xs⟩
      · exact absurd rfl hne
      · exact absurd hw (by simp [jweightList])
    · rcases kvs with _ | ⟨⟨k, v⟩, kvs⟩
      · exact absurd rfl hne
      · exact absurd hw (by simp [jweightObj])
  | succ fuel ih =>
    obtain ⟨ihP, ihQ, ihR⟩ := ih
    refine ⟨fun j cs rest hw hskip hnd => ?_,
      fun xs cs rest hne hw hskip => ?_,
      fun kvs cs rest hne hw hskip => ?_⟩
    · -- parseValue (fuel+1) on the serialization of j
      rw [parseValue.eq_def]
      dsimp only
      cases j with
      | null =>
        rw [hskip]
        simp only [dumpsVal, List.cons_append, List.nil_append]
        simp only [show (('n' : Char) = '-') = False by simp, if_false,
          show isDig 'n' = false by decide, Bool.false_eq_true,
          show (('n' : Char) = '"') = False by simp,
          show (('n' : Char) = '[') = False by simp,
          show (('n' : Char) = '{') = False by simp]
      | bool b =>
        rw [hskip]
        cases b with
        | true =>
          simp only [dumpsVal, List.cons_append, List.nil_append]
          simp only [show (('t' : Char) = '-') = False by simp, if_false,
            show isDig 't' = false by decide, Bool.false_eq_true,
            show (('t' : Char) = '"') = False by simp,
            show (('t' : Char) = '[') = False by simp,
            show (('t' : Char) = '{') = False by simp]
        | false =>
          simp only [dumpsVal, List.cons_append, List.nil_append]
          simp only [show (('f' : Char) = '-') = False by simp, if_false,
            show isDig 'f' = false by decide, Bool.false_eq_true,
            show (('f' : Char) = '"') = False by simp,
            show (('f' : Char) = '[') = False by simp,
            show (('f' : Char) = '{') = False by simp]
      | num n =>
        by_cases hn : n < 0
        · have hskip' : skipWs cs = '-' :: (natDigits (-n).toNat ++ rest) := by
            rw [hskip]
            simp only [dumpsVal, intChars]
            rw [if_pos hn]
            simp
          rw [hskip']
          dsimp only
          rw [if_pos rfl, parseNat_natDigits _ _ hnd]
          have hcast : (((-n).toNat : Nat) : Int) = -n :=
            Int.toNat_of_nonneg (by omega)
          simp [hcast]
        · obtain ⟨hdne, hdall, -⟩ := natDigits_spec n.toNat
          rcases hD : natDigits n.toNat with _ | ⟨d0, ds⟩
          · exact absurd hD hdne
          · have hd0 : isDig d0 = true := hdall d0 (by rw [hD]; simp)
            obtain ⟨hb1, hb2⟩ := isDig_bounds hd0
            have hskip' : skipWs cs = d0 :: (ds ++ rest) := by
              rw [hskip]
              simp only [dumpsVal, intChars]
              rw [if_neg hn, hD]
              simp
            rw [hskip']
            dsimp only
            rw [if_neg (char_ne_of_toNat_bounds hb1 hb2 '-' (by decide)),
              if_pos hd0]
            rw [show d0 :: (ds ++ rest) = natDigits n.toNat ++ rest from by
              rw [hD]; simp]
            rw [parseNat_natDigits _ _ hnd]
            have hcast : ((n.toNat : Nat) : Int) = n :=
              Int.toNat_of_nonneg (by omega)
            simp [hcast]
      | str s =>
        have hskip' : skipWs cs =
            '"' :: (escBody s.data ++ '"' :: rest) := by
          rw [hskip]
          simp [dumpsVal, escString, List.cons_append, List.append_assoc]
        rw [hskip']
        dsimp only
        simp only [show (('"' : Char) = '-') = False by simp,
          show isDig '"' = false by decide, Bool.false_eq_true,
          if_false, if_true]
        rw [parseStrBody_escBody]
        simp
      | arr xs =>
        have hskip' : skipWs cs = '[' :: (dumpsList xs ++ ']' :: rest) := by
          rw [hskip]
          simp [dumpsVal, List.cons_append, List.append_assoc]
        rw [hskip']
        dsimp only
        simp only [show (('[' : Char) = '-') = False by simp,
          show isDig '[' = false by decide, Bool.false_eq_true,
          show (('[' : Char) = '"') = False by simp, if_false, if_true]
        rcases xs with _ | ⟨x, xs⟩
        · simp only [dumpsList, List.nil_append]
          rw [skipWs_cons_false (by decide)]
          dsimp only
          rw [if_pos rfl]
        · obtain ⟨c0, t, hct, hws0, hne0⟩ := dumpsList_cons_head x xs
          have hct' : dumpsList (x :: xs) ++ ']' :: rest =
              c0 :: (t ++ ']' :: rest) := by
            rw [hct]
            simp
          rw [hct', skipWs_cons_false hws0]
          dsimp only
          rw [if_neg hne0]
          have hq := ihQ (x :: xs) (c0 :: (t ++ ']' :: rest)) rest (by simp)
            (by simp only [jweight] at hw; omega)
            (by rw [skipWs_cons_false hws0, ← hct'])
          rw [hq]
          simp
      | obj kvs =>
        have hskip' : skipWs cs = '{' :: (dumpsObj kvs ++ '}' :: rest) := by
          rw [hskip]
          simp [dumpsVal, List.cons_append, List.append_assoc]
        rw [hskip']
        dsimp only
        simp only [show (('{' : Char) = '-') = False by simp,
          show isDig '{' = false by decide, Bool.false_eq_true,
          show (('{' : Char) = '"') = False by simp,
          show (('{' : Char) = '[') = False by simp, if_false, if_true]
        rcases kvs with _ | ⟨⟨k, v⟩, kvs⟩
        · simp only [dumpsObj, List.nil_append]
          rw [skipWs_cons_false (by decide)]
          dsimp only
          rw [if_pos rfl]
        · obtain ⟨t, ht⟩ := dumpsObj_cons_head k v kvs
          have hct' : dumpsObj ((k, v) :: kvs) ++ '}' :: rest =
              '"' :: (t ++ '}' :: rest) := by
            rw [ht]
            simp
          rw [hct', skipWs_cons_false (by decide)]
          dsimp only
          rw [if_neg (by decide : ¬('"' : Char) = '}')]
          have hr := ihR ((k, v) :: kvs) ('"' :: (t ++ '}' :: rest)) rest
            (by simp) (by simp only [jweight] at hw; omega)
            (by rw [skipWs_cons_false (by decide), ← hct'])
          rw [hr]
          simp
    · -- parseElems (fuel+1) on a non-empty element list
      rcases xs with _ | ⟨x, xs⟩
      · exact absurd rfl hne
      rw [parseElems.eq_def]
      dsimp only
      have hwx : jweight x ≤ fuel ∧ jweightList xs ≤ fuel := by
        simp only [jweightList] at hw
        have := jweight_pos x
        rcases xs with _ | ⟨y, ys⟩
        · simp only [jweightList]
          omega
        · simp only [jweightList] at hw ⊢
          have := jweight_pos y
          omega
      rcases xs with _ | ⟨y, ys⟩
      · have hskip1 : skipWs cs = dumpsVal x ++ ']' :: rest := by
          rw [hskip]
          simp only [dumpsList]
        rw [ihP x cs (']' :: rest) hwx.1 hskip1
          (show isDig ']' = false by decide)]
        dsimp only
        rw [skipWs_cons_false (by decide)]
        dsimp only
        rw [if_neg (by decide : ¬(']' : Char) = ','), if_pos rfl]
      · have hskip1 : skipWs cs = dumpsVal x ++
            ',' :: ' ' :: (dumpsList (y :: ys) ++ ']' :: rest) := by
          rw [hskip]
          simp only [dumpsList]
          simp [List.cons_append, List.append_assoc]
        rw [ihP x cs _ hwx.1 hskip1 (show isDig ',' = false by decide)]
        dsimp only
        rw [skipWs_cons_false (by decide)]
        dsimp only
        rw [if_pos rfl]
        have hsk : skipWs (' ' :: (dumpsList (y :: ys) ++ ']' :: rest)) =
            dumpsList (y :: ys) ++ ']' :: rest := by
          rw [skipWs_cons_true (by decide)]
          exact skipWs_dumpsList y ys _
        have hq := ihQ (y :: ys)
          (' ' :: (dumpsList (y :: ys) ++ ']' :: rest)) rest (by simp)
          hwx.2 hsk
        rw [hq]
        simp
    · -- parseMembers (fuel+1) on a non-empty member list
      rcases kvs with _ | ⟨⟨k, v⟩, kvs⟩
      · exact absurd rfl hne
      rw [parseMembers.eq_def]
      dsimp only
      have hwv : jweight v ≤ fuel ∧ jweightObj kvs ≤ fuel := by
        simp only [jweightObj] at hw
        have := jweight_pos v
        rcases kvs with _ | ⟨⟨k2, v2⟩, kvs2⟩
        · simp only [jweightObj]
          omega
        · simp only [jweightObj] at hw ⊢
          have := jweight_pos v2
          omega
      rcases kvs with _ | ⟨⟨k2, v2⟩, kvs2⟩
      · have hskip1 : skipWs cs = '"' :: (escBody k.data ++ '"' ::
            (':' :: ' ' :: (dumpsVal v ++ '}' :: rest))) := by
          rw [hskip]
          simp [dumpsObj, escString, List.cons_append, List.append_assoc]
        rw [hskip1]
        dsimp only
        rw [if_pos rfl, parseStrBody_escBody]
        dsimp only
        rw [skipWs_cons_false (by decide)]
        dsimp only
        rw [if_pos rfl]
        have hpv := ihP v (' ' :: (dumpsVal v ++ '}' :: rest)) ('}' :: rest)
          hwv.1
          (by rw [skipWs_cons_true (by decide)]; exact skipWs_dumpsVal v _)
          (show isDig '}' = false by decide)
        rw [hpv]
        dsimp only
        rw [skipWs_cons_false (by decide)]
        dsimp only
        rw [if_neg (by decide : ¬('}' : Char) = ','), if_pos rfl]
      · have hskip1 : skipWs cs = '"' :: (escBody k.data ++ '"' ::
            (':' :: ' ' :: (dumpsVal v ++ ',' :: ' ' ::
              (dumpsObj ((k2, v2) :: kvs2) ++ '}' :: rest)))) := by
          rw [hskip]
          simp [dumpsObj, escString, List.cons_append, List.append_assoc]
        rw [hskip1]
        dsimp only
        rw [if_pos rfl, parseStrBody_escBody]
        dsimp only
        rw [skipWs_cons_false (by decide)]
        dsimp only
        rw [if_pos rfl]
        have hpv := ihP v (' ' :: (dumpsVal v ++ ',' :: ' ' ::
            (dumpsObj ((k2, v2) :: kvs2) ++ '}' :: rest)))
          (',' :: ' ' :: (dumpsObj ((k2, v2) :: kvs2) ++ '}' :: rest))
          hwv.1
          (by rw [skipWs_cons_true (by decide)]; exact skipWs_dumpsVal v _)
          (show isDig ',' = false by decide)
        rw [hpv]
        dsimp only
        rw [skipWs_cons_false (by decide)]
        dsimp only
        rw [if_pos rfl]
        have hr := ihR ((k2, v2) :: kvs2)
          (' ' :: (dumpsObj ((k2, v2) :: kvs2) ++ '}' :: rest)) rest
          (by simp) hwv.2
          (by rw [skipWs_cons_true (by decide)]; exact skipWs_dumpsObj _ _ _ _)
        rw [hr]
        simp

theorem jweight_le_length (n : Nat) :
    (∀ j, jweight j ≤ n → jweight j ≤ 2 * (dumpsVal j).length + 1) ∧
    (∀ xs, xs ≠ [] → jweightList xs ≤ n →
      jweightList xs ≤ 2 * (dumpsList xs).length + 3) ∧
    (∀ kvs, kvs ≠ [] → jweightObj kvs ≤ n →
      jweightObj kvs ≤ 2 * (dumpsObj kvs).length + 3) := by
  induction n with
  | zero =>
    refine ⟨fun j hw => absurd hw (by have := jweight_pos j; omega),
      fun xs hne hw => ?_, fun kvs hne hw => ?_⟩
    · rcases xs with _ | ⟨x, xs⟩
      · exact absurd rfl hne
      · exact absurd hw (by simp [jweightList])
    · rcases kvs with _ | ⟨⟨k, v⟩, kvs⟩
      · exact absurd rfl hne
      · exact absurd hw (by simp [jweightObj])
  | succ n ih =>
    obtain ⟨ihP, ihQ, ihR⟩ := ih
    refine ⟨fun j hw => ?_, fun xs hne hw => ?_, fun kvs hne hw => ?_⟩
    · cases j with
      | null => simp [jweight]
      | bool b => cases b <;> simp [jweight]
      | num m => simp [jweight]
      | str s => simp [jweight]
      | arr xs =>
        rcases xs with _ | ⟨x, xs⟩
        · simp [jweight, jweightList, dumpsVal, dumpsList]
        · have hq := ihQ (x :: xs) (by simp)
            (by simp only [jweight] at hw; omega)
          simp only [jweight, dumpsVal, List.length_cons, List.length_append,
            List.length_singleton] at hq hw ⊢
          omega
      | obj kvs =>
        rcases kvs with _ | ⟨⟨k, v⟩, kvs⟩
        · simp [jweight, jweightObj, dumpsVal, dumpsObj]
        · have hr := ihR ((k, v) :: kvs) (by simp)
            (by simp only [jweight] at hw; omega)
          simp only [jweight, dumpsVal, List.length_cons, List.length_append,
            List.length_singleton] at hr hw ⊢
          omega
    · rcases xs with _ | ⟨x, xs⟩
      · exact absurd rfl hne
      rcases xs with _ | ⟨y, ys⟩
      · have hp := ihP x (by
          simp only [jweightList] at hw
          have := jweight_pos x
          omega)
        simp only [jweightList, dumpsList] at hp hw ⊢
        omega
      · have hp := ihP x (by
          simp only [jweightList] at hw
          have := jweight_pos x
          omega)
        have hq := ihQ (y :: ys) (by simp) (by
          simp only [jweightList] at hw ⊢
          have := jweight_pos x
          omega)
        simp only [jweightList, dumpsList, List.length_append,
          List.length_cons] at hp hq hw ⊢
        omega
    · rcases kvs with _ | ⟨⟨k, v⟩, kvs⟩
      · exact absurd rfl hne
      rcases kvs with _ | ⟨⟨k2, v2⟩, kvs2⟩
      · have hp := ihP v (by
          simp only [jweightObj] at hw
          have := jweight_pos v
          omega)
        simp only [jweightObj, dumpsObj, List.length_append,
          List.length_cons] at hp hw ⊢
        omega
      · have hp := ihP v (by
          simp only [jweightObj] at hw
          have := jweight_pos v
          omega)
        have hr := ihR ((k2, v2) :: kvs2) (by simp) (by
          simp only [jweightObj] at hw ⊢
          have := jweight_pos v
          omega)
        simp only [jweightObj, dumpsObj, List.length_append,
          List.length_cons] at hp hr hw ⊢
        omega

/-- Round trip of the modelled `json` module: parsing the serialization
of any document returns that document. -/
theorem loads_dumps (j : Json) : loads (dumps j) = some j := by
  have hlen : (dumps j).length = (dumpsVal j).length := rfl
  have hwt : jweight j ≤ 2 * (dumps j).length + 2 := by
    have h1 := (jweight_le_length (jweight j)).1 j (le_refl _)
    omega
  obtain ⟨P, -, -⟩ := parse_dumps (2 * (dumps j).length + 2)
  have hP := P j (dumps j).data [] hwt
    (by
      rw [show (dumps j).data = dumpsVal j from rfl]
      have := skipWs_dumpsVal j []
      simpa using this)
    trivial
  unfold loads
  rw [hP]
  simp [skipWs]

/-- **C7.** For every StateDocument and every name, `saveToFile(name)`
followed by `loadFromFile(name)` yields a StateDocument deep-equal to
the one that was saved: both functions use the same fixed path
`./saved_states/<name>.json`, the file holds exactly `dumps(state)`,
and `loads` of that text restores the document — whatever the file map
held before and whichever session performs the load. -/
theorem save_load_roundtrip (fs : String → Option String)
    (w w' : DeviceDocs) (name : String) :
    load_state_file (save_state_file fs w name) w' name =
      .ok { w' with state := w.state } ∧
    load_state_file (save_state_file fs w name) w name = .ok w := by
  constructor
  · simp [load_state_file, save_state_file, loads_dumps]
  · simp [load_state_file, save_state_file, loads_dumps]

/-- **C5.** For every integer `v`, the 8-bit validator
`_verify_int8bit` succeeds and returns `v` exactly when
`1 ≤ v ≤ 255`, and for every `v` outside that range it fails with
`ValueError` (the spec's `ValidationError`). -/
theorem verify_int8bit_iff (v : Int) :
    (verify_int8bit v = .ok v ↔ 1 ≤ v ∧ v ≤ 255) ∧
    (verify_int8bit v = .error .valueError ↔ ¬(1 ≤ v ∧ v ≤ 255)) := by
  unfold verify_int8bit
  split
  · simp_all
    omega
  · simp_all

/-- **C9.** `_verify_bool` never fails on any JSON-representable
input: it always returns `ok`, and it returns `false` exactly on the
falsy values (`None`, `False`, `0`, `""`, `[]`, `{}`) and `true` on
every other value.  Being a pure function of its argument, it has no
side effects. -/
theorem verify_bool_total (v : Json) :
    (∃ b, verify_bool v = .ok b) ∧
    (verify_bool v = .ok false ↔
      v = .null ∨ v = .bool false ∨ v = .num 0 ∨ v = .str "" ∨
      v = .arr [] ∨ v = .obj []) := by
  refine ⟨⟨pyTruthy v, rfl⟩, ?_⟩
  cases v <;> simp [verify_bool, pyTruthy]

/-- **C6.** Whenever `state` and `info` are dicts (so that `.keys()`
is defined), `loaded` returns `true` exactly when all four documents
are non-empty, and returns `false` whenever any one of them is
empty. -/
theorem loaded_iff (w : DeviceDocs) (s i : List (String × Json))
    (hs : w.state = .obj s) (hi : w.info = .obj i) :
    (loaded w = .ok true ↔
      s ≠ [] ∧ i ≠ [] ∧ w.effects ≠ [] ∧ w.palettes ≠ []) ∧
    (loaded w = .ok false ↔
      s = [] ∨ i = [] ∨ w.effects = [] ∨ w.palettes = []) := by
  simp only [loaded, hs, hi, bind, Except.bind, pure, Except.pure,
    Except.ok.injEq]
  constructor
  · simp [List.length_eq_zero]
    tauto
  · simp [List.length_eq_zero, or_assoc]
    tauto

/-- Witness for **C6** at a concrete session: empty `palettes` makes
`loaded` return `false`. -/
theorem loaded_iff_witness :
    loaded ⟨.obj [("on", .bool true)], .obj [("leds", .null)], ["e"], []⟩
      = .ok false :=
  ((loaded_iff ⟨.obj [("on", .bool true)], .obj [("leds", .null)], ["e"], []⟩
      [("on", .bool true)] [("leds", .null)] rfl rfl).2).mpr (by simp)

/-- **C4.** The nightlight mode setter maps the symbolic name
`"fade"` to the stored integer `1` (written to
`state["nl"]["mode"]`); raw integer `4` fails with `ValueError` (the
spec's `ValidationError`) and stores nothing; raw integer `2` stores
`2`; an unrecognized symbolic value is passed through to integer
coercion and range-validated against `0..3`. -/
theorem mode_set_spec :
    mode_set (.str "fade") = .ok 1 ∧
    mode_set_state (.obj [("nl", .obj [])]) (.str "fade") =
      .ok (.obj [("nl", .obj [("mode", .num 1)])]) ∧
    (∀ st, mode_set_state st (.num 4) = .error .valueError) ∧
    mode_set (.num 2) = .ok 2 ∧
    (∀ s, modeLookup (.str s) = none →
      mode_set (.str s) = (pyIntOfString s).bind (verify_range · 0 3)) := by
  refine ⟨rfl, rfl, fun st => rfl, rfl, fun s h => ?_⟩
  simp [mode_set, h, pyInt, bind, Except.bind]

/-- Witness for **C4**: the failing raw value `4` against a concrete
state, and the coercion fallthrough at the unrecognized value `"7"`. -/
theorem mode_set_spec_witness :
    mode_set_state (.obj [("nl", .obj [])]) (.num 4) = .error .valueError ∧
    mode_set (.str "7") = (pyIntOfString "7").bind (verify_range · 0 3) :=
  ⟨mode_set_spec.2.2.1 (.obj [("nl", .obj [])]),
   mode_set_spec.2.2.2.2 "7" rfl⟩

/-- **C10, counterexample.** The string `"2"` is not one of the four
symbolic names, so it falls through the symbolic lookup — but it then
integer-coerces to `2`, which passes range validation and is stored.
It does not fail, refuting “any other string … falls through the
symbolic lookup into integer coercion and therefore fails rather than
storing 2”. -/
theorem mode_set_c10_counterexample :
    modeLookup (.str "2") = none ∧ mode_set (.str "2") = .ok 2 :=
  ⟨rfl, rfl⟩

/-- **C10 (amended).** The set of symbolic names accepted by the
nightlight mode setter is exactly
`{"instant", "fade", "color fade", "sunrise"}` — the third name
contains a space; any other string falls through the symbolic lookup
into integer coercion followed by range validation against `0..3`; in
particular `"colorFade"`, which does not parse as an integer, fails
with `ValueError` rather than storing `2`. -/
theorem mode_map_names :
    (∀ s : String, (∃ n, modeLookup (.str s) = some n) ↔
      s = "instant" ∨ s = "fade" ∨ s = "color fade" ∨ s = "sunrise") ∧
    (∀ s, modeLookup (.str s) = none →
      mode_set (.str s) = (pyIntOfString s).bind (verify_range · 0 3)) ∧
    mode_set (.str "colorFade") = .error .valueError ∧
    (∀ st, mode_set_state st (.str "colorFade") = .error .valueError) := by
  refine ⟨fun s => ?_, fun s h => ?_, rfl, fun st => rfl⟩
  · by_cases h1 : "instant" = s
    · subst h1; exact iff_of_true ⟨0, rfl⟩ (Or.inl rfl)
    · by_cases h2 : "fade" = s
      · subst h2; exact iff_of_true ⟨1, rfl⟩ (Or.inr (Or.inl rfl))
      · by_cases h3 : "color fade" = s
        · subst h3; exact iff_of_true ⟨2, rfl⟩ (Or.inr (Or.inr (Or.inl rfl)))
        · by_cases h4 : "sunrise" = s
          · subst h4
            exact iff_of_true ⟨3, rfl⟩ (Or.inr (Or.inr (Or.inr rfl)))
          · have hnone : modeLookup (.str s) = none := by
              simp [modeLookup, MODE_MAP, List.find?, decide_eq_false h1,
                decide_eq_false h2, decide_eq_false h3, decide_eq_false h4]
            refine iff_of_false (fun hex => ?_) (fun hor => ?_)
            · obtain ⟨n, hn⟩ := hex
              rw [hnone] at hn
              cases hn
            · rcases hor with h | h | h | h
              · exact h1 h.symm
              · exact h2 h.symm
              · exact h3 h.symm
              · exact h4 h.symm
  · simp [mode_set, h, pyInt, bind, Except.bind]

/-- Witness for **C10 (amended)**: the fallthrough conjunct applied at
the unrecognized string `"x"`, and the failing store at a concrete
state. -/
theorem mode_map_names_witness :
    mode_set (.str "x") = (pyIntOfString "x").bind (verify_range · 0 3) ∧
    mode_set_state (.obj [("nl", .obj [])]) (.str "colorFade") =
      .error .valueError :=
  ⟨mode_map_names.2.1 "x" rfl,
   mode_map_names.2.2.2 (.obj [("nl", .obj [])])⟩

/-- **C2, counterexample.** With `maxseg = 2`, indexing the segment
list with `-1` returns a bound Segment view: the code checks only
`item < max_seg`, never `0 ≤ item`, so the claimed validation of
`0 ≤ i < maxseg` does not happen and the claim fails at `i = -1`. -/
theorem seg_getitem_c2_counterexample :
    seg_getitem (.obj [("leds", .obj [("maxseg", .num 2)])]) (-1) =
      .ok (some (-1)) ∧ ¬((0 : Int) ≤ -1) :=
  ⟨rfl, by decide⟩

/-- **C2 (amended).** Indexing the segment list validates only the
upper bound against the current `InfoDocument`: it returns a Segment
view bound to `i` exactly when `i < maxseg` (also for negative `i`)
and otherwise returns nothing without raising; in particular with
`maxseg = 2`, indices `0` and `1` return views and index `2` returns
nothing. -/
theorem seg_getitem_spec :
    (∀ info leds m i, jsonGetKey info "leds" = .ok leds →
        jsonGetKey leds "maxseg" = .ok (.num m) →
        seg_getitem info i = .ok (if i < m then some i else none)) ∧
    seg_getitem (.obj [("leds", .obj [("maxseg", .num 2)])]) 0 =
      .ok (some 0) ∧
    seg_getitem (.obj [("leds", .obj [("maxseg", .num 2)])]) 1 =
      .ok (some 1) ∧
    seg_getitem (.obj [("leds", .obj [("maxseg", .num 2)])]) 2 =
      .ok none := by
  refine ⟨fun info leds m i hl hm => ?_, rfl, rfl, rfl⟩
  simp only [seg_getitem, hl, hm, pyLtIntJson, bind, Except.bind]
  by_cases h : i < m <;> simp [h, pure, Except.pure]

/-- Witness for **C2 (amended)**: the general bound applied at
`maxseg = 5`, index `7`. -/
theorem seg_getitem_spec_witness :
    seg_getitem (.obj [("leds", .obj [("maxseg", .num 5)])]) 7 =
      .ok none := by
  have h := seg_getitem_spec.1 (.obj [("leds", .obj [("maxseg", .num 5)])])
      (.obj [("maxseg", .num 5)]) 5 7 rfl rfl
  simpa using h

/-- **C8.** For a Segment view bound to id `i` over
`state["seg"] = xs`: the `start` getter reads
`state["seg"][i]["start"]`, while the `start` setter validates the
value with the 8-bit validator and writes the validated integer to the
whole segment slot `state["seg"][i]` — not to a `"start"` field inside
it. -/
theorem seg_start_get_set (st : Json) (xs : List Json) (i : Nat) (v : Int)
    (hseg : jsonGetKey st "seg" = .ok (.arr xs)) (hi : i < xs.length) :
    seg_item_start_get st i = jsonGetKey (xs.get ⟨i, hi⟩) "start" ∧
    (1 ≤ v ∧ v ≤ 255 →
      seg_item_start_set st i v =
        jsonSetKey st "seg" (.arr (xs.set i (.num v)))) ∧
    (¬(1 ≤ v ∧ v ≤ 255) →
      seg_item_start_set st i v = .error .valueError) := by
  have hget : pyListGet xs i = .ok (xs.get ⟨i, hi⟩) := by
    unfold pyListGet
    rw [dif_pos ⟨Int.natCast_nonneg i, by exact_mod_cast hi⟩]
    simp
  refine ⟨?_, fun hv => ?_, fun hv => ?_⟩
  · simp [seg_item_start_get, seg_accessor, jsonIndex, hseg, hget, bind,
      Except.bind]
  · have hset : pyListSet xs i (.num v) = .ok (xs.set i (.num v)) := by
      unfold pyListSet
      rw [if_pos ⟨Int.natCast_nonneg i, by exact_mod_cast hi⟩]
      simp
    simp only [seg_item_start_set, seg_setter, verify_int8bit, hseg, bind,
      Except.bind]
    rw [if_neg (by omega : ¬(255 < v ∨ v < 1))]
    simp [hset]
  · simp only [seg_item_start_set, verify_int8bit, bind, Except.bind]
    rw [if_pos (by omega : 255 < v ∨ v < 1)]

/-- Witness for **C8** at a concrete two-field segment: the getter
reads the nested `"start"` value, the setter obliterates the whole
slot with the bare validated integer. -/
theorem seg_start_get_set_witness :
    seg_item_start_get
      (.obj [("seg", .arr [.obj [("start", .num 0), ("stop", .num 10)]])]) 0 =
      .ok (.num 0) ∧
    seg_item_start_set
      (.obj [("seg", .arr [.obj [("start", .num 0), ("stop", .num 10)]])]) 0 5 =
      .ok (.obj [("seg", .arr [.num 5])]) := by
  have h := seg_start_get_set
      (.obj [("seg", .arr [.obj [("start", .num 0), ("stop", .num 10)]])])
      [.obj [("start", .num 0), ("stop", .num 10)]] 0 5 rfl (by decide)
  exact ⟨h.1.trans rfl, (h.2.1 (by decide)).trans rfl⟩

/-- **C3.** `push(expectResponse=false)` hands the current state
document to `post` unchanged and never replaces it from the response;
`push(expectResponse=true)` first injects the verbose flag
`"v": true` into the outgoing state document, posts that augmented
document, and on completion replaces the state with the parsed
response body. -/
theorem push_state_spec :
    (∀ w postOk resp,
        push_state w false postOk resp = ⟨w, some w.state, postOk⟩) ∧
    (∀ w kvs postOk resp, w.state = .obj kvs →
        (push_state w true postOk resp).sent =
          some (.obj (dictSet kvs "v" (.bool true)))) ∧
    (∀ w kvs j, w.state = .obj kvs →
        push_state w true true (some j) =
          ⟨{ w with state := j },
           some (.obj (dictSet kvs "v" (.bool true))), true⟩) := by
  refine ⟨fun w postOk resp => ?_, fun w kvs postOk resp h => ?_,
    fun w kvs j h => ?_⟩
  · cases postOk <;> rfl
  · cases w
    cases h
    cases postOk <;> cases resp <;> rfl
  · cases w
    cases h
    rfl

/-- Witness for **C3**: a successful verbose push against a concrete
session sends the `"v"`-augmented document and adopts the response. -/
theorem push_state_spec_witness :
    push_state ⟨.obj [("bri", .num 10)], .obj [], [], []⟩ true true
        (some (.obj [("ok", .bool true)])) =
      ⟨⟨.obj [("ok", .bool true)], .obj [], [], []⟩,
       some (.obj [("bri", .num 10), ("v", .bool true)]), true⟩ := by
  have h := push_state_spec.2.2 ⟨.obj [("bri", .num 10)], .obj [], [], []⟩
      [("bri", .num 10)] (.obj [("ok", .bool true)]) rfl
  simpa using h

/-- **C1, counterexample.** Failing transfers do mutate the in-memory
documents: a `pull()` whose second fetch (`info`) raises has already
replaced the state document with the first fetch's result, and a
failing `push(expectResponse=true)` has already injected `"v": true`
into the state document before posting.  Both refute "left exactly as
they were before the call". -/
theorem pull_push_c1_counterexample :
    ((pull_state ⟨.obj [("a", .num 1)], .obj [("i", .num 0)], ["e"], ["p"]⟩
        ⟨some (.obj []), none, none, none⟩).2 = false ∧
     (pull_state ⟨.obj [("a", .num 1)], .obj [("i", .num 0)], ["e"], ["p"]⟩
        ⟨some (.obj []), none, none, none⟩).1.state ≠ .obj [("a", .num 1)]) ∧
    ((push_state ⟨.obj [("a", .num 1)], .obj [], [], []⟩ true false
        none).ok = false ∧
     (push_state ⟨.obj [("a", .num 1)], .obj [], [], []⟩ true false
        none).docs.state ≠ .obj [("a", .num 1)]) := by
  refine ⟨⟨rfl, ?_⟩, ⟨rfl, ?_⟩⟩
  · show Json.obj [] ≠ Json.obj [("a", .num 1)]
    simp
  · show Json.obj [("a", .num 1), ("v", .bool true)] ≠ Json.obj [("a", .num 1)]
    simp

/-- **C1 (amended).** Failure behavior as the code implements it: a
`pull()` failing at the first fetch leaves everything unchanged, and a
failure at a later fetch leaves the documents whose fetches had not
yet run unchanged but does not roll back the ones already replaced; a
failed `push(expectResponse=false)` leaves all documents unchanged;
a failed `push(expectResponse=true)` (the POST raises, or the response
is malformed JSON) leaves `info`, `effects` and `palettes` unchanged
and leaves the state document equal to the prior one with the verbose
flag `"v"` set to `true` — never replaced by a response. -/
theorem pull_push_failure_spec :
    (∀ w f, f.state = none → pull_state w f = (w, false)) ∧
    (∀ w f st, f.state = some st → f.info = none →
        pull_state w f = ({ w with state := st }, false)) ∧
    (∀ w f st inf, f.state = some st → f.info = some inf →
        f.effects = none →
        pull_state w f = ({ w with state := st, info := inf }, false)) ∧
    (∀ w f st inf eff, f.state = some st → f.info = some inf →
        f.effects = some eff → f.palettes = none →
        pull_state w f =
          ({ w with state := st, info := inf, effects := eff }, false)) ∧
    (∀ w resp, push_state w false false resp = ⟨w, some w.state, false⟩) ∧
    (∀ w kvs resp, w.state = .obj kvs →
        (push_state w true false resp).docs =
          { w with state := .obj (dictSet kvs "v" (.bool true)) } ∧
        (push_state w true true none).docs =
          { w with state := .obj (dictSet kvs "v" (.bool true)) }) := by
  refine ⟨fun w f h => ?_, fun w f st h h' => ?_, fun w f st inf h h' h'' => ?_,
    fun w f st inf eff h h' h'' h''' => ?_, fun w resp => rfl,
    fun w kvs resp h => ?_⟩
  · simp [pull_state, h]
  · simp [pull_state, h, h']
  · simp [pull_state, h, h', h'']
  · simp [pull_state, h, h', h'', h''']
  · cases w
    cases h
    exact ⟨by cases resp <;> rfl, rfl⟩

/-- Witness for **C1 (amended)**: a concrete `pull()` whose `info`
fetch fails keeps the old `info`, `effects`, `palettes` while the
state document is already replaced. -/
theorem pull_push_failure_spec_witness :
    pull_state ⟨.obj [("a", .num 1)], .obj [("i", .num 0)], ["e"], ["p"]⟩
        ⟨some (.obj []), none, none, none⟩ =
      (⟨.obj [], .obj [("i", .num 0)], ["e"], ["p"]⟩, false) := by
  have h := pull_push_failure_spec.2.1
      ⟨.obj [("a", .num 1)], .obj [("i", .num 0)], ["e"], ["p"]⟩
      ⟨some (.obj []), none, none, none⟩ (.obj []) rfl rfl
  simpa using h

end WledIface
